import Mathlib

/-!
Verification of `sentence_transformers/evaluation/TranslationEvaluator.py`.

The Python module is a single evaluation routine: given two aligned lists of
sentences and an external encoder, it builds the full cosine-similarity matrix
between the two embedding sets, counts per-row argmax matches in both
directions, optionally prints mismatch diagnostics, computes four flattened
distance statistics, optionally appends a CSV row, and returns the mean of the
two accuracies.

Embeddings are modelled as lists of rationals (exact stand-ins for floats);
cosine similarity, which takes a real square root, lands in `ℝ`.  The encoder
is an abstract collaborator, exactly as in the module's interface contract.
-/

namespace SentTrans

/-- Embedding vector: a list of rational coordinates (models one float tensor row). -/
abbrev Emb := List ℚ

/-- Dot product of two vectors (models `np.dot` and the tensor inner product). -/
def dotQ (a b : Emb) : ℚ := (List.zipWith (fun x y => x * y) a b).sum

/-- Euclidean norm of a vector, as a real number. -/
noncomputable def enorm (a : Emb) : ℝ := Real.sqrt ((dotQ a a : ℚ) : ℝ)

/-- Modelled from the spec: `pytorch_cos_sim` lives in `sentence_transformers/util.py`,
which is not among the sources.  The spec states: "Cosine similarity is the dot product
of the two vectors divided by the product of their Euclidean norms; defined as 0 when
either norm is 0".  In Lean real division by zero is zero, so the quotient already
realises the zero-norm convention. -/
noncomputable def cos_sim (a b : Emb) : ℝ := ((dotQ a b : ℚ) : ℝ) / (enorm a * enorm b)

/-- Modelled from the spec: the pairwise similarity matrix
`sim[i][j] = cosine(embedding_source[i], embedding_target[j])`. -/
noncomputable def pytorch_cos_sim (A B : List Emb) : List (List ℝ) :=
  A.map (fun a => B.map (fun b => cos_sim a b))

/-- Models `np.argmax` on a one-dimensional array: the first index achieving the
maximum (numpy's documented tie-breaking).  Junk value `xs.length` on the empty
list, where numpy raises instead. -/
def npArgmax {α : Type} [LinearOrder α] (xs : List α) : Nat :=
  xs.findIdx (fun x => xs.all (fun y => decide (y ≤ x)))

/-- Models numpy's `.T` on a rectangular matrix given as its list of rows. -/
def matT {α : Type} [Inhabited α] (m : List (List α)) : List (List α) :=
  match m with
  | [] => []
  | r :: _ => (List.range r.length).map (fun j => m.map (fun row => row.getD j default))

/-- Stable insertion of an (index, score) pair into a list kept in descending score
order: `p` goes before the first entry whose score is `≤` its own, so among equal
scores entries inserted later stay behind — the behaviour of Python's stable
`sorted(results, key=lambda x: x[1], reverse=True)` once the list is built head first. -/
def insertDesc {α : Type} [LinearOrder α] (p : Nat × α) : List (Nat × α) → List (Nat × α)
  | [] => [p]
  | q :: qs => if q.2 ≤ p.2 then p :: q :: qs else q :: insertDesc p qs

/-- Stable sort by descending score, modelling Python's `sorted(..., reverse=True)`. -/
def sortDesc {α : Type} [LinearOrder α] : List (Nat × α) → List (Nat × α)
  | [] => []
  | x :: xs => insertDesc x (sortDesc xs)

/-- One block of diagnostics printed for a wrong src→trg match
(lines 80-87 of `TranslationEvaluator.py`). -/
structure WrongMatch (α : Type) where
  i : Nat
  max_idx : Nat
  src : String
  trg : String
  argmax_score : α
  correct_score : α
  top5 : List (Nat × α)

/-- Builds the printed diagnostics for row `i` of the similarity matrix. -/
def mkWrongMatch {α : Type} [LinearOrder α] [Inhabited α]
    (source_sentences target_sentences : List String) (i : Nat) (row : List α) :
    WrongMatch α :=
  let max_idx := npArgmax row
  { i := i
    max_idx := max_idx
    src := source_sentences.getD i default
    trg := target_sentences.getD max_idx default
    argmax_score := row.getD max_idx default
    correct_score := row.getD i default
    top5 := (sortDesc row.enum).take 5 }

/-- The evaluator object: the fields assigned by `TranslationEvaluator.__init__`. -/
structure TranslationEvaluator where
  source_sentences : List String
  target_sentences : List String
  name : String
  batch_size : Nat
  show_progress_bar : Bool
  print_wrong_matches : Bool
  csv_file : String
  csv_headers : List String
  write_csv : Bool

/-- The record built by `__init__` once the length assertion has passed. -/
def mkEval (source_sentences target_sentences : List String) (show_progress_bar : Bool)
    (batch_size : Nat) (name : String) (print_wrong_matches write_csv : Bool) :
    TranslationEvaluator :=
  { source_sentences := source_sentences
    target_sentences := target_sentences
    name := name
    batch_size := batch_size
    show_progress_bar := show_progress_bar
    print_wrong_matches := print_wrong_matches
    csv_file := "translation_evaluation" ++ (if name = "" then "" else "_" ++ name)
      ++ "_results.csv"
    csv_headers := ["epoch", "steps", "src2trg", "trg2src"]
    write_csv := write_csv }

/-- `TranslationEvaluator.__init__`: `assert len(source_sentences) == len(target_sentences)`
raises `AssertionError` (here `none`) exactly when the lengths differ; no encoding is
involved (the constructor never sees a model). -/
def TranslationEvaluator.mk? (source_sentences target_sentences : List String)
    (show_progress_bar : Bool) (batch_size : Nat) (name : String)
    (print_wrong_matches write_csv : Bool) : Option TranslationEvaluator :=
  if source_sentences.length = target_sentences.length then
    some (mkEval source_sentences target_sentences show_progress_bar batch_size name
      print_wrong_matches write_csv)
  else none

/-- The external encoder collaborator: maps a sentence list, a progress-bar flag and a
batch size to a list of embeddings.  Index alignment and length preservation are part
of its interface contract and appear as hypotheses where needed. -/
structure EncModel where
  encode : List String → Bool → Nat → List Emb

/-- The CSV file content: a list of rows, each a list of cell strings. -/
abbrev CsvFile := List (List String)

/-- The data row `writer.writerow([epoch, steps, acc_src2trg, acc_trg2src])`. -/
def csvRow (epoch steps : Int) (a1 a2 : ℚ) : List String :=
  [toString epoch, toString steps, toString a1, toString a2]

/-- Everything `__call__` computes besides the CSV side effect: the two accuracies,
the wrong-match diagnostics, the four flattened distance statistics (stored after
the negations applied on lines 125-127) and the returned score. -/
structure EvalOutput where
  acc_src2trg : ℚ
  acc_trg2src : ℚ
  wrong_matches : List (WrongMatch ℝ)
  cosine_scores : List ℝ
  manhattan_distances : List ℚ
  euclidean_distances : List ℝ
  dot_products : List ℚ
  score : ℚ

/-- Models sklearn's `paired_cosine_distances`: one cosine distance
`1 - cos_sim` per aligned row pair (the spec's zero-norm convention for cosine). -/
noncomputable def paired_cosine_distances (X Y : List Emb) : List ℝ :=
  (X.zip Y).map (fun p => 1 - cos_sim p.1 p.2)

/-- Models sklearn's `paired_manhattan_distances`: one L1 distance per aligned row pair. -/
def paired_manhattan_distances (X Y : List Emb) : List ℚ :=
  (X.zip Y).map (fun p => (List.zipWith (fun x y => |x - y|) p.1 p.2).sum)

/-- Models sklearn's `paired_euclidean_distances`: one L2 distance per aligned row pair. -/
noncomputable def paired_euclidean_distances (X Y : List Emb) : List ℝ :=
  (X.zip Y).map (fun p =>
    Real.sqrt (((List.zipWith (fun x y => (x - y) ^ 2) p.1 p.2).sum : ℚ) : ℝ))

/-- The in-memory computation of `__call__` (lines 64-132): encode both sides, build
the cosine matrix, count per-row argmax matches, collect the wrong-match printouts,
transpose and count again, divide both counters by the length of the transposed
matrix (the variable `cos_sims` has been reassigned by then), compute the four
flattened statistics, and average the accuracies for the return value. -/
noncomputable def evalOutput (ev : TranslationEvaluator) (model : EncModel) : EvalOutput :=
  let embeddings1 := model.encode ev.source_sentences ev.show_progress_bar ev.batch_size
  let embeddings2 := model.encode ev.target_sentences ev.show_progress_bar ev.batch_size
  let cos_sims := pytorch_cos_sim embeddings1 embeddings2
  let correct_src2trg := cos_sims.enum.countP (fun p => p.1 == npArgmax p.2)
  let wrong_matches :=
    if ev.print_wrong_matches then
      (cos_sims.enum.filter (fun p => !(p.1 == npArgmax p.2))).map
        (fun p => mkWrongMatch ev.source_sentences ev.target_sentences p.1 p.2)
    else []
  let cos_simsT := matT cos_sims
  let correct_trg2src := cos_simsT.enum.countP (fun p => p.1 == npArgmax p.2)
  let acc_src2trg : ℚ := (correct_src2trg : ℚ) / (cos_simsT.length : ℚ)
  let acc_trg2src : ℚ := (correct_trg2src : ℚ) / (cos_simsT.length : ℚ)
  let e1 : Emb := embeddings1.flatten
  let e2 : Emb := embeddings2.flatten
  let cosine_scores := (paired_cosine_distances [e1] [e2]).map (fun d => 1 - d)
  let manhattan_distances := (paired_manhattan_distances [e1] [e2]).map (fun d => -d)
  let euclidean_distances := (paired_euclidean_distances [e1] [e2]).map (fun d => -d)
  let dot_products := ([e1].zip [e2]).map (fun p => dotQ p.1 p.2)
  { acc_src2trg := acc_src2trg
    acc_trg2src := acc_trg2src
    wrong_matches := wrong_matches
    cosine_scores := cosine_scores
    manhattan_distances := manhattan_distances
    euclidean_distances := euclidean_distances
    dot_products := dot_products
    score := (acc_src2trg + acc_trg2src) / 2 }

/-- `TranslationEvaluator.__call__`.  `torch.stack` raises a `RuntimeError` on an empty
tensor list, modelled by `none`; otherwise the evaluation output of `evalOutput` is
produced and, when an output path is supplied and `write_csv` is set, the CSV file is
created with its header row or appended to (lines 139-147).  The state of the single
file at `<output_path>/<csv_file>` is threaded as `file`. -/
noncomputable def TranslationEvaluator.call (ev : TranslationEvaluator) (model : EncModel)
    (output_path : Option String) (epoch steps : Int) (file : Option CsvFile) :
    Option (EvalOutput × Option CsvFile) :=
  let embeddings1 := model.encode ev.source_sentences ev.show_progress_bar ev.batch_size
  let embeddings2 := model.encode ev.target_sentences ev.show_progress_bar ev.batch_size
  if embeddings1.isEmpty || embeddings2.isEmpty then none
  else
    let out := evalOutput ev model
    let file' :=
      if output_path.isSome && ev.write_csv then
        match file with
        | some rows => some (rows ++ [csvRow epoch steps out.acc_src2trg out.acc_trg2src])
        | none => some [ev.csv_headers, csvRow epoch steps out.acc_src2trg out.acc_trg2src]
      else file
    some (out, file')

/-- Folds a sequence of `(epoch, steps)` evaluation calls over the CSV file state,
always with an output path supplied; a failing call leaves the file untouched. -/
noncomputable def runCalls (ev : TranslationEvaluator) (model : EncModel) :
    List (Int × Int) → Option CsvFile → Option CsvFile
  | [], file => file
  | pr :: ps, file =>
    runCalls ev model ps
      (match ev.call model (some "out") pr.1 pr.2 file with
        | some r => r.2
        | none => file)

/-! ### Helper lemmas -/

lemma enum_eq_map_range {β : Type} (m : List β) (d : β) :
    m.enum = (List.range m.length).map (fun i => (i, m.getD i d)) := by
  apply List.ext_getElem
  · simp
  · intro i h1 h2
    have hm : i < m.length := by simpa using h1
    simp only [List.getElem_enum, List.getElem_map, List.getElem_range]
    simp [List.getD_eq_getElem?_getD, List.getElem?_eq_getElem hm]

lemma countP_enum {β : Type} (m : List β) (d : β) (q : Nat → β → Bool) :
    m.enum.countP (fun p => q p.1 p.2)
      = (List.range m.length).countP (fun i => q i (m.getD i d)) := by
  rw [enum_eq_map_range m d, List.countP_map]
  rfl

lemma filter_enum_map_fst {β : Type} (m : List β) (d : β) (q : Nat → β → Bool) :
    (m.enum.filter (fun p => q p.1 p.2)).map Prod.fst
      = (List.range m.length).filter (fun i => q i (m.getD i d)) := by
  rw [enum_eq_map_range m d, List.filter_map, List.map_map]
  have h : (Prod.fst ∘ fun i => (i, m.getD i d)) = id := rfl
  rw [h, List.map_id]
  rfl

lemma matT_cons {α : Type} [Inhabited α] (r : List α) (rest : List (List α)) :
    matT (r :: rest) = (List.range r.length).map
      (fun j => (r :: rest).map (fun row => row.getD j default)) := rfl

lemma matT_map_map {β γ δ : Type} [Inhabited δ] (f : β → γ → δ) (xs : List β) (ys : List γ)
    (hxs : xs ≠ []) :
    matT (xs.map fun x => ys.map fun y => f x y)
      = ys.map fun y => xs.map fun x => f x y := by
  obtain ⟨x, xs', rfl⟩ := List.exists_cons_of_ne_nil hxs
  rw [List.map_cons, matT_cons]
  apply List.ext_getElem
  · simp
  · intro j h1 h2
    have hj : j < ys.length := by simpa using h1
    simp only [List.getElem_map, List.getElem_range]
    show ((x :: xs').map fun x' => ys.map fun y => f x' y).map (fun row => row.getD j default)
        = (x :: xs').map fun x' => f x' (ys.get ⟨j, hj⟩)
    rw [List.map_map]
    apply List.map_congr_left
    intro b _
    simp [Function.comp, List.getD_eq_getElem?_getD, List.getElem?_eq_getElem hj]

lemma length_pytorch_cos_sim (A B : List Emb) :
    (pytorch_cos_sim A B).length = A.length := by
  simp [pytorch_cos_sim]

lemma matT_pytorch_cos_sim (A B : List Emb) (hA : A ≠ []) :
    matT (pytorch_cos_sim A B) = B.map fun b => A.map fun a => cos_sim a b :=
  matT_map_map (fun a b => cos_sim a b) A B hA

lemma length_matT_pytorch_cos_sim (A B : List Emb) (hA : A ≠ []) :
    (matT (pytorch_cos_sim A B)).length = B.length := by
  rw [matT_pytorch_cos_sim A B hA]
  simp

lemma dotQ_comm (a b : Emb) : dotQ a b = dotQ b a := by
  unfold dotQ
  rw [List.zipWith_comm_of_comm (fun x y => x * y) mul_comm]

lemma cos_sim_comm (a b : Emb) : cos_sim a b = cos_sim b a := by
  unfold cos_sim
  rw [dotQ_comm, mul_comm]

lemma pytorch_cos_sim_swap (A B : List Emb) (hA : A ≠ []) :
    pytorch_cos_sim B A = matT (pytorch_cos_sim A B) := by
  rw [matT_pytorch_cos_sim A B hA]
  unfold pytorch_cos_sim
  apply List.map_congr_left
  intro b _
  apply List.map_congr_left
  intro a _
  exact cos_sim_comm b a

lemma matT_matT_pytorch_cos_sim (A B : List Emb) (hA : A ≠ []) (hB : B ≠ []) :
    matT (matT (pytorch_cos_sim A B)) = pytorch_cos_sim A B := by
  rw [matT_pytorch_cos_sim A B hA]
  exact matT_map_map (fun b a => cos_sim a b) B A hB

lemma pairwise_fst_lt_enumFrom {β : Type} (l : List β) (n : Nat) :
    (l.enumFrom n).Pairwise (fun a b => a.1 < b.1) := by
  induction l generalizing n with
  | nil => simp
  | cons x xs ih =>
    rw [List.enumFrom_cons]
    refine List.Pairwise.cons ?_ (ih (n + 1))
    intro p hp
    have := List.le_fst_of_mem_enumFrom hp
    omega

lemma pairwise_fst_lt_enum {β : Type} (l : List β) :
    l.enum.Pairwise (fun a b => a.1 < b.1) :=
  pairwise_fst_lt_enumFrom l 0

/-- The ordering realised by Python's stable descending sort of (index, score) pairs
built from a row: strictly larger score first, equal scores broken by lower index. -/
def descOrd {α : Type} [LinearOrder α] (a b : Nat × α) : Prop :=
  b.2 < a.2 ∨ (a.2 = b.2 ∧ a.1 < b.1)

lemma mem_insertDesc {α : Type} [LinearOrder α] (p a : Nat × α) (l : List (Nat × α)) :
    a ∈ insertDesc p l ↔ a = p ∨ a ∈ l := by
  induction l with
  | nil => simp [insertDesc]
  | cons q qs ih =>
    by_cases h : q.2 ≤ p.2
    · rw [insertDesc, if_pos h]
      simp only [List.mem_cons]
    · rw [insertDesc, if_neg h]
      simp only [List.mem_cons, ih]
      tauto

lemma insertDesc_perm {α : Type} [LinearOrder α] (p : Nat × α) (l : List (Nat × α)) :
    (insertDesc p l).Perm (p :: l) := by
  induction l with
  | nil => exact List.Perm.refl _
  | cons q qs ih =>
    by_cases h : q.2 ≤ p.2
    · rw [insertDesc, if_pos h]
    · rw [insertDesc, if_neg h]
      exact (ih.cons q).trans (List.Perm.swap p q qs)

lemma sortDesc_perm {α : Type} [LinearOrder α] (l : List (Nat × α)) :
    (sortDesc l).Perm l := by
  induction l with
  | nil => exact List.Perm.refl _
  | cons x xs ih =>
    rw [sortDesc]
    exact (insertDesc_perm x (sortDesc xs)).trans (ih.cons x)

lemma insertDesc_pairwise {α : Type} [LinearOrder α] (p : Nat × α) (l : List (Nat × α))
    (hl : l.Pairwise descOrd) (hp : ∀ q ∈ l, p.1 < q.1) :
    (insertDesc p l).Pairwise descOrd := by
  induction l with
  | nil => simp [insertDesc]
  | cons q qs ih =>
    rw [List.pairwise_cons] at hl
    obtain ⟨hq, hqs⟩ := hl
    by_cases h : q.2 ≤ p.2
    · rw [insertDesc, if_pos h]
      refine List.Pairwise.cons ?_ (List.Pairwise.cons hq hqs)
      intro r hr
      have hr2 : r.2 ≤ p.2 := by
        rcases List.mem_cons.mp hr with rfl | hr'
        · exact h
        · rcases hq r hr' with h1 | ⟨h1, _⟩
          · exact le_trans (le_of_lt h1) h
          · exact h1 ▸ h
      by_cases hlt : r.2 < p.2
      · exact Or.inl hlt
      · exact Or.inr ⟨le_antisymm (le_of_not_lt hlt) hr2, hp r hr⟩
    · rw [insertDesc, if_neg h]
      refine List.Pairwise.cons ?_ (ih hqs (fun r hr => hp r (List.mem_cons_of_mem q hr)))
      intro r hr
      rcases (mem_insertDesc p r qs).mp hr with rfl | hr'
      · exact Or.inl (lt_of_not_le h)
      · exact hq r hr'

lemma sortDesc_pairwise {α : Type} [LinearOrder α] (l : List (Nat × α))
    (h : l.Pairwise (fun a b => a.1 < b.1)) :
    (sortDesc l).Pairwise descOrd := by
  induction l with
  | nil => simp [sortDesc]
  | cons x xs ih =>
    rw [List.pairwise_cons] at h
    obtain ⟨hx, hxs⟩ := h
    rw [sortDesc]
    refine insertDesc_pairwise x (sortDesc xs) (ih hxs) ?_
    intro q hq
    exact hx q ((sortDesc_perm xs).mem_iff.mp hq)

lemma call_eq_some (ev : TranslationEvaluator) (model : EncModel)
    (output_path : Option String) (epoch steps : Int) (file : Option CsvFile)
    (h1 : model.encode ev.source_sentences ev.show_progress_bar ev.batch_size ≠ [])
    (h2 : model.encode ev.target_sentences ev.show_progress_bar ev.batch_size ≠ []) :
    ev.call model output_path epoch steps file
      = some (evalOutput ev model,
          if output_path.isSome && ev.write_csv then
            match file with
            | some rows => some (rows ++ [csvRow epoch steps
                (evalOutput ev model).acc_src2trg (evalOutput ev model).acc_trg2src])
            | none => some [ev.csv_headers, csvRow epoch steps
                (evalOutput ev model).acc_src2trg (evalOutput ev model).acc_trg2src]
          else file) := by
  unfold TranslationEvaluator.call
  rw [if_neg]
  simp [h1, h2]

/-- C3: Construction of the evaluator fails with an assertion error if and only if the
source and target sentence lists have different lengths; the constructor takes no
encoder, so the failure necessarily occurs before any encoding, and for equal-length
inputs construction succeeds with the evaluator record. -/
theorem mk_fails_iff_length_mismatch (source_sentences target_sentences : List String)
    (show_progress_bar : Bool) (batch_size : Nat) (name : String)
    (print_wrong_matches write_csv : Bool) :
    (TranslationEvaluator.mk? source_sentences target_sentences show_progress_bar
        batch_size name print_wrong_matches write_csv = none
      ↔ source_sentences.length ≠ target_sentences.length)
    ∧ (source_sentences.length = target_sentences.length →
        TranslationEvaluator.mk? source_sentences target_sentences show_progress_bar
          batch_size name print_wrong_matches write_csv
        = some (mkEval source_sentences target_sentences show_progress_bar batch_size
            name print_wrong_matches write_csv)) := by
  unfold TranslationEvaluator.mk?
  constructor
  · constructor
    · intro h hlen
      simp [hlen] at h
    · intro h
      simp [h]
  · intro h
    simp [h]

/-! ### Claim C1 -/

/-- The similarity matrix built inside `__call__`: source embeddings against target
embeddings. -/
noncomputable def simMatrix (ev : TranslationEvaluator) (model : EncModel) :
    List (List ℝ) :=
  pytorch_cos_sim (model.encode ev.source_sentences ev.show_progress_bar ev.batch_size)
    (model.encode ev.target_sentences ev.show_progress_bar ev.batch_size)

/-- Spec-side reading of an accuracy: the fraction of row positions `i` of a matrix
whose first-index argmax equals `i`, among all rows. -/
def matchFraction {α : Type} [LinearOrder α] (m : List (List α)) : ℚ :=
  (((List.range m.length).countP (fun i => i == npArgmax (m.getD i []))) : ℚ)
    / (m.length : ℚ)

lemma encode_ne_nil (model : EncModel) (xs : List String) (b : Bool) (n : Nat)
    (hlen : ∀ xs b n, (model.encode xs b n).length = xs.length) (hxs : xs ≠ []) :
    model.encode xs b n ≠ [] := by
  intro h
  apply hxs
  have := hlen xs b n
  rw [h] at this
  exact List.eq_nil_of_length_eq_zero this.symm

/-- C1: for every pair of equal-length non-empty sentence lists the call succeeds,
`acc_src2trg` is the fraction of rows `i` of the N×N cosine-similarity matrix whose
argmax (first index achieving the maximum, which is what `npArgmax` computes) equals
`i`, and `acc_trg2src` is the same fraction computed on the transposed matrix; both
are divided by N. -/
theorem acc_is_argmax_match_fraction (ev : TranslationEvaluator) (model : EncModel)
    (output_path : Option String) (epoch steps : Int) (file : Option CsvFile)
    (hlen : ∀ xs b n, (model.encode xs b n).length = xs.length)
    (heq : ev.source_sentences.length = ev.target_sentences.length)
    (hne : ev.source_sentences ≠ []) :
    ∃ out file', ev.call model output_path epoch steps file = some (out, file')
      ∧ out.acc_src2trg = matchFraction (simMatrix ev model)
      ∧ out.acc_trg2src = matchFraction (matT (simMatrix ev model)) := by
  have htne : ev.target_sentences ≠ [] := by
    intro h
    apply hne
    apply List.eq_nil_of_length_eq_zero
    rw [heq, h]
    rfl
  have hE1 := encode_ne_nil model ev.source_sentences ev.show_progress_bar ev.batch_size
    hlen hne
  have hE2 := encode_ne_nil model ev.target_sentences ev.show_progress_bar ev.batch_size
    hlen htne
  refine ⟨evalOutput ev model, _,
    call_eq_some ev model output_path epoch steps file hE1 hE2, ?_, ?_⟩
  · simp only [evalOutput, matchFraction, simMatrix]
    rw [countP_enum _ ([] : List ℝ) (fun i row => i == npArgmax row)]
    congr 1
    rw [length_matT_pytorch_cos_sim _ _ hE1, length_pytorch_cos_sim, hlen, hlen, heq]
  · simp only [evalOutput, matchFraction, simMatrix]
    rw [countP_enum _ ([] : List ℝ) (fun i row => i == npArgmax row)]

/-- A deterministic toy encoder used by the witnesses: each sentence is sent to the
two-dimensional vector `(length, 1)`, regardless of the progress-bar flag and the
batch size. -/
def wModel : EncModel :=
  ⟨fun xs _ _ => xs.map (fun s => [(s.length : ℚ), 1])⟩

/-- The empty evaluator name used by the witnesses. -/
def noName : String := ""

/-- A concrete evaluator on two sentence pairs, quiet flags. -/
def wEval : TranslationEvaluator :=
  mkEval ["a", "bb"] ["c", "dd"] false 16 noName false true

theorem acc_is_argmax_match_fraction_witness :
    ∃ out file', wEval.call wModel none (-1) (-1) none = some (out, file')
      ∧ out.acc_src2trg = matchFraction (simMatrix wEval wModel)
      ∧ out.acc_trg2src = matchFraction (matT (simMatrix wEval wModel)) :=
  acc_is_argmax_match_fraction wEval wModel none (-1) (-1) none
    (fun xs _ _ => List.length_map xs _) (by decide) (by decide)

/-! ### Claim C2 -/

/-- C2: for every pair of equal-length non-empty sentence lists, the call succeeds,
returns exactly `(acc_src2trg + acc_trg2src) / 2`, and the returned value lies in
`[0, 1]`. -/
theorem score_is_mean_and_bounded (ev : TranslationEvaluator) (model : EncModel)
    (output_path : Option String) (epoch steps : Int) (file : Option CsvFile)
    (hlen : ∀ xs b n, (model.encode xs b n).length = xs.length)
    (heq : ev.source_sentences.length = ev.target_sentences.length)
    (hne : ev.source_sentences ≠ []) :
    ∃ out file', ev.call model output_path epoch steps file = some (out, file')
      ∧ out.score = (out.acc_src2trg + out.acc_trg2src) / 2
      ∧ 0 ≤ out.score ∧ out.score ≤ 1 := by
  have htne : ev.target_sentences ≠ [] := by
    intro h
    apply hne
    apply List.eq_nil_of_length_eq_zero
    rw [heq, h]
    rfl
  have hE1 := encode_ne_nil model ev.source_sentences ev.show_progress_bar ev.batch_size
    hlen hne
  have hE2 := encode_ne_nil model ev.target_sentences ev.show_progress_bar ev.batch_size
    hlen htne
  refine ⟨evalOutput ev model, _,
    call_eq_some ev model output_path epoch steps file hE1 hE2, ?_, ?_, ?_⟩
  · simp only [evalOutput]
  all_goals {
    simp only [evalOutput]
    set m := pytorch_cos_sim
      (model.encode ev.source_sentences ev.show_progress_bar ev.batch_size)
      (model.encode ev.target_sentences ev.show_progress_bar ev.batch_size) with hm
    have hNpos : 0 < ((matT m).length : ℚ) := by
      rw [hm, length_matT_pytorch_cos_sim _ _ hE1, hlen]
      exact_mod_cast List.length_pos.mpr htne
    have hc1 : (m.enum.countP (fun p => p.1 == npArgmax p.2) : ℚ) ≤ ((matT m).length : ℚ) := by
      have h1 : m.enum.countP (fun p => p.1 == npArgmax p.2) ≤ m.length := by
        calc m.enum.countP (fun p => p.1 == npArgmax p.2) ≤ m.enum.length :=
              List.countP_le_length _
          _ = m.length := List.enum_length
      have h2 : m.length = (matT m).length := by
        rw [hm, length_matT_pytorch_cos_sim _ _ hE1, length_pytorch_cos_sim, hlen, hlen, heq]
      exact_mod_cast h2 ▸ h1
    have hc2 : ((matT m).enum.countP (fun p => p.1 == npArgmax p.2) : ℚ)
        ≤ ((matT m).length : ℚ) := by
      have h1 : (matT m).enum.countP (fun p => p.1 == npArgmax p.2) ≤ (matT m).length := by
        calc (matT m).enum.countP (fun p => p.1 == npArgmax p.2) ≤ (matT m).enum.length :=
              List.countP_le_length _
          _ = (matT m).length := List.enum_length
      exact_mod_cast h1
    have ha1 : (0 : ℚ) ≤ (m.enum.countP (fun p => p.1 == npArgmax p.2) : ℚ)
        / ((matT m).length : ℚ) := by positivity
    have ha2 : (0 : ℚ) ≤ ((matT m).enum.countP (fun p => p.1 == npArgmax p.2) : ℚ)
        / ((matT m).length : ℚ) := by positivity
    have hb1 : (m.enum.countP (fun p => p.1 == npArgmax p.2) : ℚ)
        / ((matT m).length : ℚ) ≤ 1 := by
      rw [div_le_one hNpos]
      exact hc1
    have hb2 : ((matT m).enum.countP (fun p => p.1 == npArgmax p.2) : ℚ)
        / ((matT m).length : ℚ) ≤ 1 := by
      rw [div_le_one hNpos]
      exact hc2
    linarith
  }

theorem score_is_mean_and_bounded_witness :
    ∃ out file', wEval.call wModel none (-1) (-1) none = some (out, file')
      ∧ out.score = (out.acc_src2trg + out.acc_trg2src) / 2
      ∧ 0 ≤ out.score ∧ out.score ≤ 1 :=
  score_is_mean_and_bounded wEval wModel none (-1) (-1) none
    (fun xs _ _ => List.length_map xs _) (by decide) (by decide)

/-! ### Claim C4 -/

lemma evalOutput_score (ev : TranslationEvaluator) (model : EncModel) :
    (evalOutput ev model).score
      = ((evalOutput ev model).acc_src2trg + (evalOutput ev model).acc_trg2src) / 2 := by
  simp only [evalOutput]

lemma ne_nil_of_length_eq {xs ys : List String} (heq : xs.length = ys.length)
    (hne : xs ≠ []) : ys ≠ [] := by
  intro h
  apply hne
  apply List.eq_nil_of_length_eq_zero
  rw [heq, h]
  rfl

/-- C4: with a functional encoder and equal-length non-empty lists, running the
evaluation with source and target swapped succeeds, swaps `acc_src2trg` and
`acc_trg2src` (the similarity matrix transposes), and returns the same score. -/
theorem swap_swaps_accuracies (src trg : List String) (spb : Bool) (bs : Nat)
    (name : String) (pwm wcsv : Bool) (model : EncModel)
    (output_path : Option String) (epoch steps : Int) (file : Option CsvFile)
    (hlen : ∀ xs b n, (model.encode xs b n).length = xs.length)
    (heq : src.length = trg.length) (hne : src ≠ []) :
    ∃ out f out' f',
      (mkEval src trg spb bs name pwm wcsv).call model output_path epoch steps file
          = some (out, f)
      ∧ (mkEval trg src spb bs name pwm wcsv).call model output_path epoch steps file
          = some (out', f')
      ∧ out'.acc_src2trg = out.acc_trg2src
      ∧ out'.acc_trg2src = out.acc_src2trg
      ∧ out'.score = out.score := by
  have htne : trg ≠ [] := ne_nil_of_length_eq heq hne
  have hE1 := encode_ne_nil model src spb bs hlen hne
  have hE2 := encode_ne_nil model trg spb bs hlen htne
  have hden : (pytorch_cos_sim (model.encode src spb bs) (model.encode trg spb bs)).length
      = (matT (pytorch_cos_sim (model.encode src spb bs) (model.encode trg spb bs))).length := by
    rw [length_pytorch_cos_sim, length_matT_pytorch_cos_sim _ _ hE1, hlen, hlen, heq]
  have key1 : (evalOutput (mkEval trg src spb bs name pwm wcsv) model).acc_src2trg
      = (evalOutput (mkEval src trg spb bs name pwm wcsv) model).acc_trg2src := by
    simp only [evalOutput, mkEval]
    rw [pytorch_cos_sim_swap _ _ hE1, matT_matT_pytorch_cos_sim _ _ hE1 hE2, hden]
  have key2 : (evalOutput (mkEval trg src spb bs name pwm wcsv) model).acc_trg2src
      = (evalOutput (mkEval src trg spb bs name pwm wcsv) model).acc_src2trg := by
    simp only [evalOutput, mkEval]
    rw [pytorch_cos_sim_swap _ _ hE1, matT_matT_pytorch_cos_sim _ _ hE1 hE2, hden]
  refine ⟨evalOutput (mkEval src trg spb bs name pwm wcsv) model, _,
    evalOutput (mkEval trg src spb bs name pwm wcsv) model, _,
    call_eq_some _ model output_path epoch steps file hE1 hE2,
    call_eq_some _ model output_path epoch steps file hE2 hE1,
    key1, key2, ?_⟩
  rw [evalOutput_score, evalOutput_score, key1, key2, add_comm]

theorem swap_swaps_accuracies_witness :
    ∃ out f out' f',
      (mkEval ["a", "bb"] ["c", "dd"] false 16 noName false true).call wModel
          none (-1) (-1) none = some (out, f)
      ∧ (mkEval ["c", "dd"] ["a", "bb"] false 16 noName false true).call wModel
          none (-1) (-1) none = some (out', f')
      ∧ out'.acc_src2trg = out.acc_trg2src
      ∧ out'.acc_trg2src = out.acc_src2trg
      ∧ out'.score = out.score :=
  swap_swaps_accuracies ["a", "bb"] ["c", "dd"] false 16 noName false true wModel
    none (-1) (-1) none (fun xs _ _ => List.length_map xs _) (by decide) (by decide)

/-! ### Claim C5 -/

lemma runCalls_append (ev : TranslationEvaluator) (model : EncModel)
    (h1 : model.encode ev.source_sentences ev.show_progress_bar ev.batch_size ≠ [])
    (h2 : model.encode ev.target_sentences ev.show_progress_bar ev.batch_size ≠ [])
    (hw : ev.write_csv = true) :
    ∀ (params : List (Int × Int)) (rows : CsvFile),
      runCalls ev model params (some rows)
        = some (rows ++ params.map (fun pr => csvRow pr.1 pr.2
            (evalOutput ev model).acc_src2trg (evalOutput ev model).acc_trg2src)) := by
  intro params
  induction params with
  | nil => intro rows; simp [runCalls]
  | cons pr ps ih =>
    intro rows
    rw [runCalls, call_eq_some ev model (some "out") pr.1 pr.2 (some rows) h1 h2]
    simp only [Option.isSome_some, hw, Bool.and_self, if_true]
    rw [ih]
    simp

/-- C5: with `write_csv = true` and an output path supplied at every call, after
`k ≥ 1` evaluation calls starting from no file, the CSV file holds exactly one header
row `epoch, steps, src2trg, trg2src` followed by exactly the `k` data rows in call
order, each carrying that call's epoch, steps and the two accuracies; the header was
written only when the file was first created, and the file name fixed at construction
is `translation_evaluation[_<name>]_results.csv`. -/
theorem csv_after_k_calls (src trg : List String) (spb : Bool) (bs : Nat) (name : String)
    (pwm : Bool) (model : EncModel) (params : List (Int × Int))
    (hlen : ∀ xs b n, (model.encode xs b n).length = xs.length)
    (heq : src.length = trg.length) (hne : src ≠ []) (hps : params ≠ []) :
    runCalls (mkEval src trg spb bs name pwm true) model params none
        = some ((mkEval src trg spb bs name pwm true).csv_headers
            :: params.map (fun pr => csvRow pr.1 pr.2
                (evalOutput (mkEval src trg spb bs name pwm true) model).acc_src2trg
                (evalOutput (mkEval src trg spb bs name pwm true) model).acc_trg2src))
      ∧ (mkEval src trg spb bs name pwm true).csv_headers
          = ["epoch", "steps", "src2trg", "trg2src"]
      ∧ (mkEval src trg spb bs name pwm true).csv_file
          = "translation_evaluation" ++ (if name = "" then "" else "_" ++ name)
            ++ "_results.csv" := by
  obtain ⟨pr, ps, rfl⟩ := List.exists_cons_of_ne_nil hps
  have htne : trg ≠ [] := ne_nil_of_length_eq heq hne
  have hE1 := encode_ne_nil model src spb bs hlen hne
  have hE2 := encode_ne_nil model trg spb bs hlen htne
  refine ⟨?_, rfl, rfl⟩
  have hw : (mkEval src trg spb bs name pwm true).write_csv = true := rfl
  rw [runCalls,
    call_eq_some (mkEval src trg spb bs name pwm true) model (some "out") pr.1 pr.2 none
      hE1 hE2]
  simp only [Option.isSome_some, hw, Bool.and_self, if_true]
  rw [runCalls_append (mkEval src trg spb bs name pwm true) model hE1 hE2 rfl]
  simp

theorem csv_after_k_calls_witness :
    runCalls (mkEval ["a", "bb"] ["c", "dd"] false 16 noName false true) wModel
          [(1, 100), (2, 200)] none
        = some ((mkEval ["a", "bb"] ["c", "dd"] false 16 noName false true).csv_headers
            :: [((1 : Int), (100 : Int)), (2, 200)].map (fun pr => csvRow pr.1 pr.2
                (evalOutput (mkEval ["a", "bb"] ["c", "dd"] false 16 noName false true)
                  wModel).acc_src2trg
                (evalOutput (mkEval ["a", "bb"] ["c", "dd"] false 16 noName false true)
                  wModel).acc_trg2src))
      ∧ (mkEval ["a", "bb"] ["c", "dd"] false 16 noName false true).csv_headers
          = ["epoch", "steps", "src2trg", "trg2src"]
      ∧ (mkEval ["a", "bb"] ["c", "dd"] false 16 noName false true).csv_file
          = "translation_evaluation" ++ (if noName = "" then "" else "_" ++ noName)
            ++ "_results.csv" :=
  csv_after_k_calls ["a", "bb"] ["c", "dd"] false 16 noName false wModel
    [(1, 100), (2, 200)] (fun xs _ _ => List.length_map xs _) (by decide) (by decide)
    (by decide)

/-! ### Claim C6 -/

/-- C6: with zero sentences the evaluation never reaches the accuracy division:
`torch.stack` on the empty list of encoded tensors raises a `RuntimeError`, modelled
as `none`, so the call fails with an explicit error rather than yielding an
undefined accuracy. -/
theorem empty_input_fails_explicitly (ev : TranslationEvaluator) (model : EncModel)
    (output_path : Option String) (epoch steps : Int) (file : Option CsvFile)
    (hlen : ∀ xs b n, (model.encode xs b n).length = xs.length)
    (hsrc : ev.source_sentences = []) :
    ev.call model output_path epoch steps file = none := by
  have h : model.encode ev.source_sentences ev.show_progress_bar ev.batch_size = [] := by
    apply List.eq_nil_of_length_eq_zero
    rw [hlen, hsrc]
    rfl
  unfold TranslationEvaluator.call
  rw [h]
  simp

/-- A concrete evaluator on zero sentence pairs. -/
def wEvalEmpty : TranslationEvaluator := mkEval [] [] false 16 noName false true

theorem empty_input_fails_explicitly_witness :
    wEvalEmpty.call wModel none (-1) (-1) none = none :=
  empty_input_fails_explicitly wEvalEmpty wModel none (-1) (-1) none
    (fun xs _ _ => List.length_map xs _) rfl

/-! ### Claim C7 -/

/-- C7: every entry `sim[i][j]` of the similarity matrix is the dot product of source
embedding `i` and target embedding `j` divided by the product of their Euclidean
norms, and it equals 0 whenever either norm is 0. -/
theorem cos_matrix_entry_spec (A B : List Emb) (i j : Nat)
    (hi : i < A.length) (hj : j < B.length) :
    ((pytorch_cos_sim A B).getD i []).getD j 0
        = ((dotQ (A.getD i []) (B.getD j []) : ℚ) : ℝ)
          / (enorm (A.getD i []) * enorm (B.getD j []))
      ∧ ((enorm (A.getD i []) = 0 ∨ enorm (B.getD j []) = 0) →
          ((pytorch_cos_sim A B).getD i []).getD j 0 = 0) := by
  have hA : A.getD i [] = A[i] := by
    rw [List.getD_eq_getElem?_getD, List.getElem?_eq_getElem hi]
    rfl
  have hB : B.getD j [] = B[j] := by
    rw [List.getD_eq_getElem?_getD, List.getElem?_eq_getElem hj]
    rfl
  have hentry : ((pytorch_cos_sim A B).getD i []).getD j 0 = cos_sim A[i] B[j] := by
    simp [pytorch_cos_sim, List.getD_eq_getElem?_getD, List.getElem?_eq_getElem hi,
      List.getElem?_eq_getElem hj]
  constructor
  · rw [hentry, hA, hB]
    rfl
  · intro h0
    rw [hentry]
    unfold cos_sim
    rcases h0 with h | h
    · rw [hA] at h
      rw [h, zero_mul, div_zero]
    · rw [hB] at h
      rw [h, mul_zero, div_zero]

/-- A source embedding set with a single zero vector (zero Euclidean norm). -/
def wA : List Emb := [[0, 0]]

/-- A target embedding set with a single vector of norm 5. -/
def wB : List Emb := [[3, 4]]

theorem cos_matrix_entry_spec_witness :
    ((pytorch_cos_sim wA wB).getD 0 []).getD 0 0
        = ((dotQ (wA.getD 0 []) (wB.getD 0 []) : ℚ) : ℝ)
          / (enorm (wA.getD 0 []) * enorm (wB.getD 0 []))
      ∧ ((enorm (wA.getD 0 []) = 0 ∨ enorm (wB.getD 0 []) = 0) →
          ((pytorch_cos_sim wA wB).getD 0 []).getD 0 0 = 0) :=
  cos_matrix_entry_spec wA wB 0 0 (by decide) (by decide)

/-! ### Claim C9 -/

/-- The concatenation of all source embeddings into one long vector
(`embeddings1.reshape(1, -1)` flattens row-major). -/
def flatSrc (ev : TranslationEvaluator) (model : EncModel) : Emb :=
  (model.encode ev.source_sentences ev.show_progress_bar ev.batch_size).flatten

/-- The concatenation of all target embeddings into one long vector. -/
def flatTrg (ev : TranslationEvaluator) (model : EncModel) : Emb :=
  (model.encode ev.target_sentences ev.show_progress_bar ev.batch_size).flatten

/-- C9: the four auxiliary diagnostics are each a single scalar (a one-element list)
computed between the flattened concatenation of all N source embeddings and the
flattened concatenation of all N target embeddings — not per pair — and the returned
score is the mean of the two accuracies alone, with no diagnostic contribution. -/
theorem diagnostics_flattened_scalars (ev : TranslationEvaluator) (model : EncModel)
    (output_path : Option String) (epoch steps : Int) (file : Option CsvFile)
    (hlen : ∀ xs b n, (model.encode xs b n).length = xs.length)
    (heq : ev.source_sentences.length = ev.target_sentences.length)
    (hne : ev.source_sentences ≠ []) :
    ∃ out file', ev.call model output_path epoch steps file = some (out, file')
      ∧ out.cosine_scores = [cos_sim (flatSrc ev model) (flatTrg ev model)]
      ∧ out.manhattan_distances
          = [-(List.zipWith (fun x y => |x - y|) (flatSrc ev model) (flatTrg ev model)).sum]
      ∧ out.euclidean_distances
          = [-Real.sqrt (((List.zipWith (fun x y => (x - y) ^ 2) (flatSrc ev model)
              (flatTrg ev model)).sum : ℚ) : ℝ)]
      ∧ out.dot_products = [dotQ (flatSrc ev model) (flatTrg ev model)]
      ∧ out.score = (out.acc_src2trg + out.acc_trg2src) / 2 := by
  have htne : ev.target_sentences ≠ [] := ne_nil_of_length_eq heq hne
  have hE1 := encode_ne_nil model ev.source_sentences ev.show_progress_bar ev.batch_size
    hlen hne
  have hE2 := encode_ne_nil model ev.target_sentences ev.show_progress_bar ev.batch_size
    hlen htne
  refine ⟨evalOutput ev model, _,
    call_eq_some ev model output_path epoch steps file hE1 hE2, ?_, ?_, ?_, ?_, ?_⟩
  · simp [evalOutput, paired_cosine_distances, flatSrc, flatTrg, sub_sub_cancel]
  · simp [evalOutput, paired_manhattan_distances, flatSrc, flatTrg]
  · simp [evalOutput, paired_euclidean_distances, flatSrc, flatTrg]
  · simp [evalOutput, flatSrc, flatTrg]
  · exact evalOutput_score ev model

theorem diagnostics_flattened_scalars_witness :
    ∃ out file', wEval.call wModel none (-1) (-1) none = some (out, file')
      ∧ out.cosine_scores = [cos_sim (flatSrc wEval wModel) (flatTrg wEval wModel)]
      ∧ out.manhattan_distances
          = [-(List.zipWith (fun x y => |x - y|) (flatSrc wEval wModel)
              (flatTrg wEval wModel)).sum]
      ∧ out.euclidean_distances
          = [-Real.sqrt (((List.zipWith (fun x y => (x - y) ^ 2) (flatSrc wEval wModel)
              (flatTrg wEval wModel)).sum : ℚ) : ℝ)]
      ∧ out.dot_products = [dotQ (flatSrc wEval wModel) (flatTrg wEval wModel)]
      ∧ out.score = (out.acc_src2trg + out.acc_trg2src) / 2 :=
  diagnostics_flattened_scalars wEval wModel none (-1) (-1) none
    (fun xs _ _ => List.length_map xs _) (by decide) (by decide)

/-! ### Claim C8 -/

/-- C8: with `print_wrong_matches` enabled, the call emits one diagnostic block for
every source row whose argmax differs from the row index — and for no other row: the
reported row indices are exactly the mismatched ones in order.  Each block reports the
pair indices, the source sentence, the top-ranked target sentence, the winning score
and the correct pair's score, and the top-five (index, score) candidates: the first
five entries of a permutation of the row ordered by strictly descending score with
ties broken by the original (lowest-first) index order (`descOrd`). -/
theorem wrong_match_diagnostics (ev : TranslationEvaluator) (model : EncModel)
    (output_path : Option String) (epoch steps : Int) (file : Option CsvFile)
    (hlen : ∀ xs b n, (model.encode xs b n).length = xs.length)
    (heq : ev.source_sentences.length = ev.target_sentences.length)
    (hne : ev.source_sentences ≠ [])
    (hpwm : ev.print_wrong_matches = true) :
    ∃ out file', ev.call model output_path epoch steps file = some (out, file')
      ∧ out.wrong_matches.map (fun r => r.i)
          = (List.range (simMatrix ev model).length).filter
              (fun i => !(i == npArgmax ((simMatrix ev model).getD i [])))
      ∧ ∀ r ∈ out.wrong_matches,
          r.max_idx = npArgmax ((simMatrix ev model).getD r.i [])
          ∧ r.max_idx ≠ r.i
          ∧ r.src = ev.source_sentences.getD r.i default
          ∧ r.trg = ev.target_sentences.getD r.max_idx default
          ∧ r.argmax_score = ((simMatrix ev model).getD r.i []).getD r.max_idx default
          ∧ r.correct_score = ((simMatrix ev model).getD r.i []).getD r.i default
          ∧ r.top5 = (sortDesc ((simMatrix ev model).getD r.i []).enum).take 5
          ∧ (sortDesc ((simMatrix ev model).getD r.i []).enum).Perm
              ((simMatrix ev model).getD r.i []).enum
          ∧ r.top5.Pairwise descOrd := by
  have htne : ev.target_sentences ≠ [] := ne_nil_of_length_eq heq hne
  have hE1 := encode_ne_nil model ev.source_sentences ev.show_progress_bar ev.batch_size
    hlen hne
  have hE2 := encode_ne_nil model ev.target_sentences ev.show_progress_bar ev.batch_size
    hlen htne
  have hwm : (evalOutput ev model).wrong_matches
      = ((simMatrix ev model).enum.filter (fun p => !(p.1 == npArgmax p.2))).map
          (fun p => mkWrongMatch ev.source_sentences ev.target_sentences p.1 p.2) := by
    simp [evalOutput, simMatrix, hpwm]
  refine ⟨evalOutput ev model, _,
    call_eq_some ev model output_path epoch steps file hE1 hE2, ?_, ?_⟩
  · rw [hwm, List.map_map]
    have hcomp : ((fun r => WrongMatch.i r)
          ∘ fun p => mkWrongMatch ev.source_sentences ev.target_sentences p.1 p.2)
        = (Prod.fst : Nat × List ℝ → Nat) := by
      funext p
      simp [mkWrongMatch]
    rw [hcomp, filter_enum_map_fst _ ([] : List ℝ) (fun i row => !(i == npArgmax row))]
  · intro r hr
    rw [hwm] at hr
    obtain ⟨p, hp, rfl⟩ := List.mem_map.mp hr
    obtain ⟨hpmem, hpq⟩ := List.mem_filter.mp hp
    have hpmem' : (p.1, p.2) ∈ (simMatrix ev model).enumFrom 0 := hpmem
    have h3 := List.mem_enumFrom hpmem'
    have hb : p.1 < (simMatrix ev model).length := by
      have := h3.2.1
      omega
    have hrow : (simMatrix ev model).getD p.1 [] = p.2 := by
      rw [List.getD_eq_getElem?_getD, List.getElem?_eq_getElem hb]
      have h4 := h3.2.2
      simpa using h4.symm
    have hne2 : npArgmax p.2 ≠ p.1 := by
      intro hcontra
      rw [hcontra] at hpq
      simp at hpq
    simp only [mkWrongMatch, hrow]
    refine ⟨trivial, hne2, trivial, trivial, trivial, trivial, trivial,
      sortDesc_perm _, ?_⟩
    exact List.Pairwise.sublist (List.take_sublist _ _)
      (sortDesc_pairwise _ (pairwise_fst_lt_enum _))

/-- A concrete evaluator with `print_wrong_matches` enabled. -/
def wEvalPwm : TranslationEvaluator :=
  mkEval ["a", "bb"] ["c", "dd"] false 16 noName true true

theorem wrong_match_diagnostics_witness :
    ∃ out file', wEvalPwm.call wModel none (-1) (-1) none = some (out, file')
      ∧ out.wrong_matches.map (fun r => r.i)
          = (List.range (simMatrix wEvalPwm wModel).length).filter
              (fun i => !(i == npArgmax ((simMatrix wEvalPwm wModel).getD i [])))
      ∧ ∀ r ∈ out.wrong_matches,
          r.max_idx = npArgmax ((simMatrix wEvalPwm wModel).getD r.i [])
          ∧ r.max_idx ≠ r.i
          ∧ r.src = wEvalPwm.source_sentences.getD r.i default
          ∧ r.trg = wEvalPwm.target_sentences.getD r.max_idx default
          ∧ r.argmax_score = ((simMatrix wEvalPwm wModel).getD r.i []).getD r.max_idx default
          ∧ r.correct_score = ((simMatrix wEvalPwm wModel).getD r.i []).getD r.i default
          ∧ r.top5 = (sortDesc ((simMatrix wEvalPwm wModel).getD r.i []).enum).take 5
          ∧ (sortDesc ((simMatrix wEvalPwm wModel).getD r.i []).enum).Perm
              ((simMatrix wEvalPwm wModel).getD r.i []).enum
          ∧ r.top5.Pairwise descOrd :=
  wrong_match_diagnostics wEvalPwm wModel none (-1) (-1) none
    (fun xs _ _ => List.length_map xs _) (by decide) (by decide) rfl

/-! ### Claim C10 -/

/-- The observable result the claim compares across runs: both accuracies, the
returned score, and the CSV file state — everything except console diagnostics. -/
def projOut (p : EvalOutput × Option CsvFile) : (ℚ × ℚ × ℚ) × Option CsvFile :=
  ((p.1.acc_src2trg, p.1.acc_trg2src, p.1.score), p.2)

/-- C10: for a fixed encoder that ignores the progress-bar flag, two runs differing
only in `print_wrong_matches` and `show_progress_bar` produce identical accuracies,
identical returned score, and an identical CSV file state; those flags influence
console output only. -/
theorem output_flags_noninterference (src trg : List String) (bs : Nat) (name : String)
    (wcsv : Bool) (spb1 spb2 pwm1 pwm2 : Bool) (model : EncModel)
    (output_path : Option String) (epoch steps : Int) (file : Option CsvFile)
    (hdet : ∀ xs b b' n, model.encode xs b n = model.encode xs b' n) :
    ((mkEval src trg spb1 bs name pwm1 wcsv).call model output_path epoch steps
        file).map projOut
      = ((mkEval src trg spb2 bs name pwm2 wcsv).call model output_path epoch steps
        file).map projOut := by
  have he1 : model.encode src spb2 bs = model.encode src spb1 bs := hdet src spb2 spb1 bs
  have he2 : model.encode trg spb2 bs = model.encode trg spb1 bs := hdet trg spb2 spb1 bs
  simp only [TranslationEvaluator.call, evalOutput, mkEval]
  rw [he1, he2]
  by_cases hemp : ((model.encode src spb1 bs).isEmpty
      || (model.encode trg spb1 bs).isEmpty) = true
  · rw [if_pos hemp, if_pos hemp]
  · rw [if_neg hemp, if_neg hemp]
    simp [projOut]

theorem output_flags_noninterference_witness :
    ((mkEval ["a", "bb"] ["c", "dd"] false 16 noName false true).call wModel
        none (-1) (-1) none).map projOut
      = ((mkEval ["a", "bb"] ["c", "dd"] true 16 noName true true).call wModel
        none (-1) (-1) none).map projOut :=
  output_flags_noninterference ["a", "bb"] ["c", "dd"] 16 noName true false true
    false true wModel none (-1) (-1) none (fun _ _ _ _ => rfl)

end SentTrans
